import Mathlib

/-!
# Verification model of `ogg-batch-download-convert.py`

A shallow embedding of the batch Ogg-download-and-convert script.  Pure string
manipulation (filename derivation, URL joining) is translated directly from the
Python primitives it uses; the effectful parts (filesystem, network, sleeping,
transcoder invocations) are modelled by explicit state passing:

* `FS` models the relevant on-disk state: the set of existing file paths and
  the lines appended to `output_notes.txt`.
* `Trace` records the observable effects of one call: HTTP requests issued,
  `time.sleep(1)` calls, and invocations of the transcoder
  (`convert_ogg_to_mp3`).
* Network and transcoder outcomes are supplied by environments (`DlEnv`,
  `ItemWorld`): a function from attempt index to success/failure for each
  retried fetch, and a flag for whether transcoding raises.
* `sys.exit(msg)` (which exits with a non-zero status) is modelled by the
  `DlOut.exited` / `ItemOut.halted` constructors.
-/

namespace OggBatch

/-- Models Python `s.endswith(suf)`: `suf` is a suffix of `s`. -/
def pyEndsWith (s suf : String) : Bool :=
  suf.data.isSuffixOf s.data

/-- Chars of `l` strictly before the first occurrence of `sep` (all of `l`
when `sep` does not occur).  Models `l.split(sep, 1)[0]` for nonempty `sep`. -/
def splitBeforeList (sep : List Char) : List Char → List Char
  | [] => []
  | c :: rest =>
    if sep.isPrefixOf (c :: rest) then [] else c :: splitBeforeList sep rest

/-- Models Python `s.split(sep, 1)[0]` for a nonempty separator. -/
def pySplitBefore (s sep : String) : String :=
  String.mk (splitBeforeList sep.data s.data)

/-- Whether `sep` occurs as a contiguous sublist of the argument. -/
def hasSubList (sep : List Char) : List Char → Bool
  | [] => sep.isPrefixOf ([] : List Char)
  | c :: rest => sep.isPrefixOf (c :: rest) || hasSubList sep rest

/-- Value of a hexadecimal digit, if `c` is one. -/
def hexVal (c : Char) : Option Nat :=
  if '0' ≤ c ∧ c ≤ '9' then some (c.toNat - '0'.toNat)
  else if 'a' ≤ c ∧ c ≤ 'f' then some (c.toNat - 'a'.toNat + 10)
  else if 'A' ≤ c ∧ c ≤ 'F' then some (c.toNat - 'A'.toNat + 10)
  else none

/-- Percent-decoding on character lists: each valid `%XX` escape becomes the
character with code `XX`; malformed escapes pass through unchanged.  Models
`urllib.parse.unquote` pointwise (exact for ASCII escapes, which is all the
claims depend on; Python additionally UTF-8-decodes multi-byte sequences). -/
def unquoteList : List Char → List Char
  | '%' :: a :: b :: rest =>
    match hexVal a, hexVal b with
    | some hi, some lo => Char.ofNat (16 * hi + lo) :: unquoteList rest
    | _, _ => '%' :: unquoteList (a :: b :: rest)
  | c :: rest => c :: unquoteList rest
  | [] => []

/-- Models `urllib.parse.unquote` (see `unquoteList`). -/
def unquote (s : String) : String :=
  String.mk (unquoteList s.data)

/-- Accumulator for `lastSegment`: the current segment is reset at every
slash. -/
def lastSegAux : List Char → List Char → List Char
  | [], acc => acc.reverse
  | '/' :: rest, _ => lastSegAux rest []
  | c :: rest, acc => lastSegAux rest (c :: acc)

/-- Models Python `s.split('/')[-1]`: everything after the last slash. -/
def lastSegment (s : String) : String :=
  String.mk (lastSegAux s.data [])

/-- Models POSIX `os.path.join(folder, name)` for two components. -/
def pathJoin (folder name : String) : String :=
  if name.data.head? = some '/' then name
  else if folder.data = [] then name
  else if folder.data.getLast? = some '/' then folder ++ name
  else folder ++ "/" ++ name

/-- Splits at the first occurrence of `sep`, returning the parts before and
after it, or `none` when `sep` does not occur. -/
def breakOnList (sep : List Char) : List Char → Option (List Char × List Char)
  | [] => if sep.isPrefixOf ([] : List Char) then some ([], []) else none
  | c :: rest =>
    if sep.isPrefixOf (c :: rest) then some ([], (c :: rest).drop sep.length)
    else
      match breakOnList sep rest with
      | some (pre, post) => some (c :: pre, post)
      | none => none

/-- Models `urllib.parse.urljoin` (`requests.compat.urljoin`), simplified: a
reference counts as absolute iff it contains `"://"`; userinfo, query,
fragment, and dot-segment normalisation are omitted.  This covers the
scheme-relative, host-relative and path-relative references the script
resolves. -/
def urljoin (base rel : String) : String :=
  if rel = "" then base
  else if (breakOnList "://".data rel.data).isSome then rel
  else
    match breakOnList "://".data base.data with
    | none => rel
    | some (scheme, rest) =>
      if rel.data.take 2 = ['/', '/'] then
        String.mk (scheme ++ [':'] ++ rel.data)
      else if rel.data.head? = some '/' then
        String.mk (scheme ++ "://".data ++ rest.takeWhile (fun c => c != '/') ++ rel.data)
      else
        let dir := (rest.reverse.dropWhile (fun c => c != '/')).reverse
        if dir = [] then String.mk (scheme ++ "://".data ++ rest ++ ['/'] ++ rel.data)
        else String.mk (scheme ++ "://".data ++ dir ++ rel.data)

/-! ## Filesystem and effect traces -/

/-- The on-disk state the script reads and writes: existing file paths
(membership models `os.path.isfile`) and the lines appended to
`output_notes.txt`. -/
structure FS where
  files : List String
  notes : List String
deriving Repr, DecidableEq

/-- Observable effects of one call: HTTP requests issued (in order), number of
`time.sleep(1)` calls, and number of `convert_ogg_to_mp3` invocations. -/
structure Trace where
  requests : List String
  sleeps : Nat
  transcodeCalls : Nat
deriving Repr, DecidableEq

/-- The empty trace. -/
def Trace.nil : Trace := ⟨[], 0, 0⟩

/-- Sequential composition of effect traces. -/
def Trace.merge (t u : Trace) : Trace :=
  ⟨t.requests ++ u.requests, t.sleeps + u.sleeps, t.transcodeCalls + u.transcodeCalls⟩

/-- Insert a path into the list of existing files (idempotently). -/
def insertStr (p : String) (l : List String) : List String :=
  if p ∈ l then l else p :: l

/-- Create/overwrite the file at `p` (`open(p, 'wb')`). -/
def fsWrite (fs : FS) (p : String) : FS :=
  { fs with files := insertStr p fs.files }

/-- Append one line to `output_notes.txt`. -/
def fsNote (fs : FS) (line : String) : FS :=
  { fs with notes := fs.notes ++ [line] }

/-- Delete the file at `p` (`os.remove` / the removal half of `os.rename`). -/
def fsRemove (fs : FS) (p : String) : FS :=
  { fs with files := fs.files.filter (fun q => q != p) }

/-! ## The download-and-convert pipeline (`download_and_convert_ogg`) -/

/-- Environment for one `download_and_convert_ogg` call: whether download
attempt `n` (0-based) succeeds, and whether `convert_ogg_to_mp3` succeeds
(raises otherwise). -/
structure DlEnv where
  netOk : Nat → Bool
  transcodeOk : Bool

/-- Result of the download retry loop (source lines 80–95): normal fall-through
with the updated filesystem, or `sys.exit` with a message. -/
inductive DlLoop where
  | ok (fs : FS) (tr : Trace)
  | fatal (fs : FS) (tr : Trace) (msg : String)
deriving Repr

/-- The trace accumulated by the retry loop, in either outcome. -/
def DlLoop.trace : DlLoop → Trace
  | .ok _ tr => tr
  | .fatal _ tr _ => tr

/-- The filesystem state after the retry loop, in either outcome. -/
def DlLoop.fsOf : DlLoop → FS
  | .ok fs _ => fs
  | .fatal fs _ _ => fs

/-- The `sys.exit` diagnostic used for unrecoverable connection errors. -/
def connErrorMsg : String := "Encountered connection error which could not be resolved."

/-- The retry loop of source lines 80–95: `for attempt in range(10)` around a
streaming GET of `url` written to `path`.  On success the file is written and
the loop breaks; on failure, if further attempts remain
(`number_attempts - attempt - 1 > 0`) it sleeps 1 second and retries,
otherwise it calls `sys.exit`.  `fuel` is the number of attempts remaining;
the top-level call passes 10. -/
def downloadRetry (netOk : Nat → Bool) (url path : String) (attempt : Nat)
    (fs : FS) (tr : Trace) : Nat → DlLoop
  | 0 => .ok fs tr
  | fuel + 1 =>
    if netOk attempt then
      .ok (fsWrite fs path) { tr with requests := tr.requests ++ [url] }
    else if 0 < fuel then
      downloadRetry netOk url path (attempt + 1) fs
        { tr with requests := tr.requests ++ [url], sleeps := tr.sleeps + 1 } fuel
    else .fatal fs { tr with requests := tr.requests ++ [url] } connErrorMsg

/-- `filename = unquote(ogg_url.split('/')[-1])` (source line 57). -/
def derivedFilename (url : String) : String :=
  unquote (lastSegment url)

/-- `local_filename_ogg = os.path.join(folder, filename).split('.ogg', 1)[0] + '.ogg'`
(source line 61). -/
def oggPathOf (folder url : String) : String :=
  pySplitBefore (pathJoin folder (derivedFilename url)) ".ogg" ++ ".ogg"

/-- `local_filename_mp3` as computed on source lines 62–68: for a filename
ending in `.mp3`, the joined path split before the first `.ogg` plus `.mp3`;
otherwise `local_filename_ogg.split('.ogg', 1)[0] + '.mp3'`. -/
def mp3PathOf (folder url : String) : String :=
  if pyEndsWith (derivedFilename url) ".mp3" then
    pySplitBefore (pathJoin folder (derivedFilename url)) ".ogg" ++ ".mp3"
  else
    pySplitBefore (oggPathOf folder url) ".ogg" ++ ".mp3"

/-- Result of `download_and_convert_ogg`: a normal return
`(local_filename_mp3, skip_flag)` or a `sys.exit` (non-zero process exit). -/
inductive DlOut where
  | ret (path : String) (skipped : Bool)
  | exited (msg : String)
deriving Repr, DecidableEq

/-- `download_and_convert_ogg(ogg_url, folder)` (source lines 46–113).
Returns the outcome, the final filesystem state, and the effect trace of the
call.  The `os.makedirs` on lines 53–54 only touches directories and is not
modelled; `print` calls are not modelled. -/
def download_and_convert_ogg (env : DlEnv) (url folder : String) (fs : FS) :
    DlOut × FS × Trace :=
  let oggP := oggPathOf folder url
  let mp3P := mp3PathOf folder url
  let handleAsMp3 := pyEndsWith (derivedFilename url) ".mp3"
  -- lines 62–68: the "Was already mp3" note is written while deriving names,
  -- before the existence check below
  let fs1 := if handleAsMp3 then fsNote fs ("Was already mp3: " ++ oggP) else fs
  if mp3P ∈ fs1.files then
    -- lines 73–75: skip, no network activity
    (.ret mp3P true, fs1, Trace.nil)
  else
    match downloadRetry env.netOk url oggP 0 fs1 Trace.nil 10 with
    | .fatal fs2 tr msg => (.exited msg, fs2, tr)
    | .ok fs2 tr =>
      if handleAsMp3 then
        -- lines 98–100: os.rename(local_filename_ogg, local_filename_mp3)
        (.ret mp3P false, fsWrite (fsRemove fs2 oggP) mp3P, tr)
      else
        -- lines 105–111: attempt the transcode
        let tr2 := { tr with transcodeCalls := tr.transcodeCalls + 1 }
        if env.transcodeOk then
          (.ret mp3P false, fsRemove (fsWrite fs2 mp3P) oggP, tr2)
        else
          (.ret mp3P false, fsNote fs2 ("Conversion fail: " ++ oggP), tr2)

/-! ## The subpage fetch (`get_file_page_response`) and the run driver -/

/-- Outcome of one `requests.get` in the subpage fetch loop: either a returned
response (modelled by its `ok` flag, i.e. status < 400 — `requests` never
raises for a bad status unless `raise_for_status` is called) or a raised
exception. -/
inductive ReqOutcome where
  | resp (ok : Bool)
  | exn
deriving Repr, DecidableEq

/-- The loop of `get_file_page_response` (source lines 26–36):
`for attempt in range(10)`, on success store the response and break; on any
exception print and `time.sleep(1)` — unconditionally, even on the final
attempt — then retry.  The response is modelled by its `ok` flag; `none`
models the Python `None` the function returns after exhaustion. -/
def gfprLoop (outcome : Nat → ReqOutcome) (url : String) (attempt : Nat) (tr : Trace) :
    Nat → Option Bool × Trace
  | 0 => (none, tr)
  | fuel + 1 =>
    match outcome attempt with
    | .resp ok => (some ok, { tr with requests := tr.requests ++ [url] })
    | .exn =>
      gfprLoop outcome url (attempt + 1)
        { tr with requests := tr.requests ++ [url], sleeps := tr.sleeps + 1 } fuel

/-- `get_file_page_response(file_link)` (source lines 21–36). -/
def get_file_page_response (outcome : Nat → ReqOutcome) (url : String) :
    Option Bool × Trace :=
  gfprLoop outcome url 0 Trace.nil 10

/-- Python truthiness of the value returned by `get_file_page_response`:
`None` is falsy, and `requests.models.Response.__bool__` returns `self.ok`,
so a non-2xx/3xx response is falsy as well. -/
def respTruthy : Option Bool → Bool
  | none => false
  | some ok => ok

/-! ### Subpage HTML and audio-URL resolution -/

/-- A `<source>` element, carrying its optional `src` attribute. -/
structure SourceEl where
  src : Option String
deriving Repr, DecidableEq

/-- An `<audio>` element; `sourceEl` is `audio_tag.find('source')`, the first
nested `<source>` if any. -/
structure AudioEl where
  sourceEl : Option SourceEl
deriving Repr, DecidableEq

/-- The parsed subpage as the script queries it: `soup.find('audio')` and the
`href` attributes of `soup.find_all('a', href=True)` in document order. -/
structure Doc where
  audio : Option AudioEl
  anchorHrefs : List String
deriving Repr, DecidableEq

/-- Python truthiness of an optional string (`None` and `""` are falsy). -/
def truthyStr : Option String → Bool
  | none => false
  | some s => s != ""

/-- The audio-element phase of resolution (source lines 157–163): the value of
the `ogg_url` variable after the `<audio>` check — set only when an audio
element exists, has a nested source, and that source's `src` is truthy. -/
def audioSrcUrl (doc : Doc) (pageUrl : String) : Option String :=
  match doc.audio with
  | none => none
  | some a =>
    match a.sourceEl with
    | none => none
    | some s =>
      match s.src with
      | none => none
      | some src => if src != "" then some (urljoin pageUrl src) else none

/-- Resolution of the downloadable audio URL from a subpage (source lines
157–170): the audio element's source takes priority; otherwise
(`if not ogg_url:`) the first anchor whose `href` ends with `".ogg"`,
resolved against the subpage URL; otherwise `ogg_url` keeps its prior
(falsy) value. -/
def resolve_ogg_url (doc : Doc) (pageUrl : String) : Option String :=
  let fromAudio := audioSrcUrl doc pageUrl
  if truthyStr fromAudio then fromAudio
  else
    match doc.anchorHrefs.find? (fun h => pyEndsWith h ".ogg") with
    | some h => some (urljoin pageUrl h)
    | none => fromAudio

/-! ### The per-item driver loop (`__main__`, source lines 144–197) -/

/-- The world one listing item is processed against: the subpage fetch
outcomes, the parsed subpage, and the download/transcode environment. -/
structure ItemWorld where
  fetch : Nat → ReqOutcome
  doc : Doc
  netOk : Nat → Bool
  transcodeOk : Bool

/-- Per-item outcome as the driver sees it: a completed (or skipped)
pipeline run, a skipped item with no audio link (console message only), or a
`sys.exit` that aborts the whole run. -/
inductive ItemOut where
  | done (path : String) (skipped : Bool)
  | noLink
  | halted (msg : String)
deriving Repr, DecidableEq

/-- Processing of one listing item (source lines 152–197): fetch the subpage
(`sys.exit` when the result is falsy — `None` after retry exhaustion or a
non-ok response), resolve the audio URL, and when one is found
(`if ogg_url:`) run the pipeline.  The metadata-tagging block (lines
177–195) only touches tag fields of the finished file and the note log on
tag failure; it is not modelled here.  The caller has already made the link
absolute (lines 148–149). -/
def processItem (w : ItemWorld) (link folder : String) (fs : FS) : ItemOut × FS × Trace :=
  match get_file_page_response w.fetch link with
  | (resp, tr) =>
    if respTruthy resp = false then (.halted connErrorMsg, fs, tr)
    else
      match resolve_ogg_url w.doc link with
      | some u =>
        if u != "" then
          match download_and_convert_ogg ⟨w.netOk, w.transcodeOk⟩ u folder fs with
          | (.exited msg, fs1, tr1) => (.halted msg, fs1, tr.merge tr1)
          | (.ret p s, fs1, tr1) => (.done p s, fs1, tr.merge tr1)
        else (.noLink, fs, tr)
      | none => (.noLink, fs, tr)

/-- The driver loop over the discovered listing links (source lines 144–197):
items are processed sequentially; a `sys.exit` raised while processing an
item ends the run at once, so no later item is processed. -/
def run_items (items : List (String × ItemWorld)) (folder : String) (fs : FS) :
    List ItemOut × FS :=
  match items with
  | [] => ([], fs)
  | (link, w) :: rest =>
    match processItem w link folder fs with
    | (ItemOut.halted msg, fs1, _) => ([ItemOut.halted msg], fs1)
    | (ItemOut.done p s, fs1, _) =>
      let pr := run_items rest folder fs1
      (ItemOut.done p s :: pr.1, pr.2)
    | (ItemOut.noLink, fs1, _) =>
      let pr := run_items rest folder fs1
      (ItemOut.noLink :: pr.1, pr.2)

/-! ## Helper lemmas about the string primitives -/

/-- `pyEndsWith` agrees with the list-suffix relation. -/
theorem pyEndsWith_iff {s suf : String} :
    pyEndsWith s suf = true ↔ suf.data <:+ s.data := by
  simp [pyEndsWith, List.isSuffixOf_iff_suffix]

/-- A string ending in `".ogg"` does not end in `".mp3"`. -/
theorem pyEndsWith_ogg_not_mp3 {s : String} (h : pyEndsWith s ".ogg" = true) :
    pyEndsWith s ".mp3" = false := by
  rw [pyEndsWith_iff] at h
  by_contra hc
  rw [Bool.not_eq_false, pyEndsWith_iff] at hc
  obtain ⟨t1, e1⟩ := h
  obtain ⟨t2, e2⟩ := hc
  rw [← e2] at e1
  have hlen : t1.length = t2.length := by
    have h1 := congrArg List.length e1
    have h2 : (".ogg" : String).data.length = 4 := by decide
    have h3 : (".mp3" : String).data.length = 4 := by decide
    simp only [List.length_append, h2, h3] at h1
    omega
  have h4 := (List.append_inj e1 hlen).2
  exact absurd h4 (by decide)

/-- When the separator does not occur, splitting before it is the identity. -/
theorem splitBeforeList_of_not_hasSub {sep : List Char} :
    ∀ {l : List Char}, hasSubList sep l = false → splitBeforeList sep l = l := by
  intro l
  induction l with
  | nil => intro _; rfl
  | cons c rest ih =>
    intro h
    simp only [hasSubList, Bool.or_eq_false_iff] at h
    simp [splitBeforeList, h.1, ih h.2]

/-- Appending `".ogg"` and appending `".mp3"` always give distinct strings. -/
theorem append_ogg_ne_append_mp3 (a b : String) : a ++ ".ogg" ≠ b ++ ".mp3" := by
  intro h
  have hd := congrArg String.data h
  rw [String.data_append, String.data_append] at hd
  have g1 : (a.data ++ (".ogg" : String).data).getLast? = some 'g' := by
    rw [show (".ogg" : String).data = ['.', 'o', 'g', 'g'] from rfl,
      show a.data ++ ['.', 'o', 'g', 'g'] = (a.data ++ ['.', 'o', 'g']) ++ ['g'] by simp,
      List.getLast?_concat]
  have g2 : (b.data ++ (".mp3" : String).data).getLast? = some '3' := by
    rw [show (".mp3" : String).data = ['.', 'm', 'p', '3'] from rfl,
      show b.data ++ ['.', 'm', 'p', '3'] = (b.data ++ ['.', 'm', 'p']) ++ ['3'] by simp,
      List.getLast?_concat]
  rw [hd, g2] at g1
  exact absurd g1 (by decide)

/-- A string made from a nonempty character list is not the empty string. -/
theorem mk_ne_empty {l : List Char} (h : l ≠ []) : String.mk l ≠ "" := by
  intro he
  exact h (by simpa using congrArg String.data he)

/-- `urljoin` never produces the empty string from a nonempty reference. -/
theorem urljoin_ne_empty (base : String) {rel : String} (h : rel ≠ "") :
    urljoin base rel ≠ "" := by
  have hdata : rel.data ≠ [] := by
    intro hn
    apply h
    cases rel with
    | mk d =>
      simp only at hn
      rw [hn]
  unfold urljoin
  rw [if_neg h]
  split
  · exact h
  · split
    · exact h
    · split
      · exact mk_ne_empty (by simp [hdata])
      · split
        · exact mk_ne_empty (by simp [hdata])
        · dsimp only
          split
          · exact mk_ne_empty (by simp [hdata])
          · exact mk_ne_empty (by simp [hdata])

/-- Membership in `insertStr`. -/
theorem mem_insertStr {q p : String} {l : List String} :
    q ∈ insertStr p l ↔ q = p ∨ q ∈ l := by
  unfold insertStr
  split
  · next hp =>
    constructor
    · exact fun hq => Or.inr hq
    · rintro (rfl | hq)
      · exact hp
      · exact hq
  · simp [List.mem_cons]

/-! ## Lemmas about the download retry loop -/

/-- When every attempt fails, the download loop issues one request per unit of
fuel, sleeps between attempts but not after the last one, leaves the
filesystem untouched, and exits fatally. -/
theorem downloadRetry_allFail {netOk : Nat → Bool} (hf : ∀ n, netOk n = false)
    (url path : String) :
    ∀ (fuel attempt : Nat) (fs : FS) (tr : Trace), 0 < fuel →
      downloadRetry netOk url path attempt fs tr fuel =
        .fatal fs
          ⟨tr.requests ++ List.replicate fuel url, tr.sleeps + (fuel - 1), tr.transcodeCalls⟩
          connErrorMsg := by
  intro fuel
  induction fuel with
  | zero => intro _ _ _ hpos; omega
  | succ m ih =>
    intro attempt fs tr _
    unfold downloadRetry
    rw [hf attempt]
    simp only [Bool.false_eq_true, if_false]
    by_cases hm : 0 < m
    · rw [if_pos hm, ih (attempt + 1) fs _ hm]
      have hreq : (tr.requests ++ [url]) ++ List.replicate m url =
          tr.requests ++ List.replicate (m + 1) url := by
        simp [List.replicate_succ]
      have hsl : tr.sleeps + 1 + (m - 1) = tr.sleeps + (m + 1 - 1) := by omega
      rw [DlLoop.fatal.injEq, Trace.mk.injEq]
      exact ⟨rfl, ⟨hreq, hsl, rfl⟩, rfl⟩
    · have hm0 : m = 0 := by omega
      subst hm0
      simp [List.replicate_succ]

/-- When some attempt within the fuel budget succeeds, the loop ends normally
having written the downloaded file, without touching the transcode counter. -/
theorem downloadRetry_ok_of_success {netOk : Nat → Bool} (url path : String) :
    ∀ (fuel attempt : Nat) (fs : FS) (tr : Trace),
      (∃ n, n < fuel ∧ netOk (attempt + n) = true) →
      ∃ tr', downloadRetry netOk url path attempt fs tr fuel = .ok (fsWrite fs path) tr' ∧
        tr'.transcodeCalls = tr.transcodeCalls := by
  intro fuel
  induction fuel with
  | zero =>
    rintro attempt fs tr ⟨n, hn, _⟩
    omega
  | succ m ih =>
    rintro attempt fs tr ⟨n, hn, hsucc⟩
    by_cases h0 : netOk attempt = true
    · refine ⟨{ tr with requests := tr.requests ++ [url] }, ?_, rfl⟩
      unfold downloadRetry
      rw [if_pos h0]
    · have hn0 : n ≠ 0 := by
        intro h
        rw [h, Nat.add_zero] at hsucc
        exact h0 hsucc
      have hm : 0 < m := by omega
      obtain ⟨tr', htr', hcalls⟩ :=
        ih (attempt + 1) fs { tr with requests := tr.requests ++ [url], sleeps := tr.sleeps + 1 }
          ⟨n - 1, by omega, by rw [show attempt + 1 + (n - 1) = attempt + n by omega]; exact hsucc⟩
      refine ⟨tr', ?_, hcalls⟩
      unfold downloadRetry
      rw [if_neg (by simp [h0]), if_pos hm]
      exact htr'

/-- The filesystem coming out of the download loop is either untouched or has
exactly the downloaded file written. -/
theorem downloadRetry_fsOf {netOk : Nat → Bool} (url path : String) :
    ∀ (fuel attempt : Nat) (fs : FS) (tr : Trace),
      (downloadRetry netOk url path attempt fs tr fuel).fsOf = fs ∨
      (downloadRetry netOk url path attempt fs tr fuel).fsOf = fsWrite fs path := by
  intro fuel
  induction fuel with
  | zero => intro _ _ _; exact Or.inl rfl
  | succ m ih =>
    intro attempt fs tr
    unfold downloadRetry
    by_cases h0 : netOk attempt = true
    · rw [if_pos h0]
      exact Or.inr rfl
    · rw [if_neg (by simp [h0])]
      by_cases hm : 0 < m
      · rw [if_pos hm]
        exact ih (attempt + 1) fs _
      · rw [if_neg hm]
        exact Or.inl rfl

/-- The download loop never touches the transcode counter. -/
theorem downloadRetry_transcode_const {netOk : Nat → Bool} (url path : String) :
    ∀ (fuel attempt : Nat) (fs : FS) (tr : Trace),
      (downloadRetry netOk url path attempt fs tr fuel).trace.transcodeCalls =
        tr.transcodeCalls := by
  intro fuel
  induction fuel with
  | zero => intro _ _ _; rfl
  | succ m ih =>
    intro attempt fs tr
    unfold downloadRetry
    by_cases h0 : netOk attempt = true
    · rw [if_pos h0]
      rfl
    · rw [if_neg (by simp [h0])]
      by_cases hm : 0 < m
      · rw [if_pos hm]
        exact ih (attempt + 1) fs _
      · rw [if_neg hm]
        rfl

/-- The download loop issues at most one request per unit of fuel. -/
theorem downloadRetry_requests_le {netOk : Nat → Bool} (url path : String) :
    ∀ (fuel attempt : Nat) (fs : FS) (tr : Trace),
      (downloadRetry netOk url path attempt fs tr fuel).trace.requests.length ≤
        tr.requests.length + fuel := by
  intro fuel
  induction fuel with
  | zero => intro _ _ _; simp [downloadRetry, DlLoop.trace]
  | succ m ih =>
    intro attempt fs tr
    unfold downloadRetry
    by_cases h0 : netOk attempt = true
    · rw [if_pos h0]
      show (tr.requests ++ [url]).length ≤ tr.requests.length + (m + 1)
      simp only [List.length_append, List.length_singleton]
      omega
    · rw [if_neg (by simp [h0])]
      by_cases hm : 0 < m
      · rw [if_pos hm]
        have h := ih (attempt + 1) fs
          { tr with requests := tr.requests ++ [url], sleeps := tr.sleeps + 1 }
        simp only [List.length_append, List.length_singleton] at h
        omega
      · rw [if_neg hm]
        show (tr.requests ++ [url]).length ≤ tr.requests.length + (m + 1)
        simp only [List.length_append, List.length_singleton]
        omega

/-! ## Lemmas about the subpage fetch loop -/

/-- When every attempt raises, the subpage fetch loop issues one request per
unit of fuel and sleeps once per failure — including after the final attempt —
then returns `None`. -/
theorem gfprLoop_allExn {outcome : Nat → ReqOutcome} (hf : ∀ n, outcome n = .exn)
    (url : String) :
    ∀ (fuel attempt : Nat) (tr : Trace),
      gfprLoop outcome url attempt tr fuel =
        (none, ⟨tr.requests ++ List.replicate fuel url, tr.sleeps + fuel, tr.transcodeCalls⟩) := by
  intro fuel
  induction fuel with
  | zero => intro _ tr; simp [gfprLoop]
  | succ m ih =>
    intro attempt tr
    unfold gfprLoop
    rw [hf attempt]
    show gfprLoop outcome url (attempt + 1)
        { tr with requests := tr.requests ++ [url], sleeps := tr.sleeps + 1 } m = _
    rw [ih (attempt + 1)]
    have hreq : (tr.requests ++ [url]) ++ List.replicate m url =
        tr.requests ++ List.replicate (m + 1) url := by
      simp [List.replicate_succ]
    have hsl : tr.sleeps + 1 + m = tr.sleeps + (m + 1) := by omega
    rw [Prod.mk.injEq, Trace.mk.injEq]
    exact ⟨rfl, hreq, hsl, rfl⟩

/-- The subpage fetch loop issues at most one request per unit of fuel. -/
theorem gfprLoop_requests_le {outcome : Nat → ReqOutcome} (url : String) :
    ∀ (fuel attempt : Nat) (tr : Trace),
      (gfprLoop outcome url attempt tr fuel).2.requests.length ≤
        tr.requests.length + fuel := by
  intro fuel
  induction fuel with
  | zero => intro _ _; simp [gfprLoop]
  | succ m ih =>
    intro attempt tr
    unfold gfprLoop
    cases hout : outcome attempt with
    | resp ok =>
      show (tr.requests ++ [url]).length ≤ tr.requests.length + (m + 1)
      simp only [List.length_append, List.length_singleton]
      omega
    | exn =>
      show (gfprLoop outcome url (attempt + 1)
          { tr with requests := tr.requests ++ [url], sleeps := tr.sleeps + 1 } m).2.requests.length ≤
        tr.requests.length + (m + 1)
      have h := ih (attempt + 1)
        { tr with requests := tr.requests ++ [url], sleeps := tr.sleeps + 1 }
      simp only [List.length_append, List.length_singleton] at h
      omega

/-- When the first attempt returns a response (of either status), the subpage
fetch makes exactly one request, sleeps zero times, and returns it: no retry
happens on a returned-but-not-ok response. -/
theorem gfpr_first_resp {outcome : Nat → ReqOutcome} {b : Bool}
    (h : outcome 0 = ReqOutcome.resp b) (url : String) :
    get_file_page_response outcome url = (some b, ⟨[url], 0, 0⟩) := by
  unfold get_file_page_response
  rw [show (10 : Nat) = 9 + 1 from rfl]
  unfold gfprLoop
  rw [h]
  rfl

/-! ## Pipeline-level helper lemmas -/

/-- When the output file is absent and every download attempt fails, the
pipeline call ends in `sys.exit` with the connection-error diagnostic. -/
theorem download_allFail (env : DlEnv) (url folder : String) (fs : FS)
    (hnew : mp3PathOf folder url ∉ fs.files)
    (hf : ∀ n, env.netOk n = false) :
    ∃ fs1 tr, download_and_convert_ogg env url folder fs = (.exited connErrorMsg, fs1, tr) := by
  unfold download_and_convert_ogg
  by_cases hm : pyEndsWith (derivedFilename url) ".mp3" = true
  · simp only [hm, if_true, fsNote]
    rw [if_neg hnew]
    rw [downloadRetry_allFail hf url (oggPathOf folder url) 10 0 _ Trace.nil (by omega)]
    exact ⟨_, _, rfl⟩
  · simp only [hm, Bool.false_eq_true, if_false]
    rw [if_neg hnew]
    rw [downloadRetry_allFail hf url (oggPathOf folder url) 10 0 _ Trace.nil (by omega)]
    exact ⟨_, _, rfl⟩

/-- When the derived mp3 path already exists, the pipeline skips: it returns
`(mp3Path, skipped = true)` and issues no request. -/
theorem download_skip (env : DlEnv) (url folder : String) (fs : FS)
    (h : mp3PathOf folder url ∈ fs.files) :
    (download_and_convert_ogg env url folder fs).1 = DlOut.ret (mp3PathOf folder url) true ∧
    (download_and_convert_ogg env url folder fs).2.2.requests = [] := by
  unfold download_and_convert_ogg
  by_cases hm : pyEndsWith (derivedFilename url) ".mp3" = true <;>
    simp [hm, fsNote, h, Trace.nil]

/-- Exact outcome of the pipeline for a non-`.mp3`-named URL when the output is
absent and some download attempt succeeds: the ogg is written, and transcoding
either succeeds (mp3 written, ogg removed) or fails (note appended, ogg
kept). -/
theorem download_ok_notMp3 (env : DlEnv) (url folder : String) (fs : FS)
    (hm : pyEndsWith (derivedFilename url) ".mp3" = false)
    (hnew : mp3PathOf folder url ∉ fs.files)
    (hnet : ∃ n, n < 10 ∧ env.netOk n = true) :
    ∃ tr,
      download_and_convert_ogg env url folder fs =
        if env.transcodeOk then
          (DlOut.ret (mp3PathOf folder url) false,
            fsRemove (fsWrite (fsWrite fs (oggPathOf folder url)) (mp3PathOf folder url))
              (oggPathOf folder url), tr)
        else
          (DlOut.ret (mp3PathOf folder url) false,
            fsNote (fsWrite fs (oggPathOf folder url))
              ("Conversion fail: " ++ oggPathOf folder url), tr) := by
  obtain ⟨tr', hok, _⟩ :=
    downloadRetry_ok_of_success url (oggPathOf folder url) 10 0 fs Trace.nil
      (by simpa using hnet)
  refine ⟨{ tr' with transcodeCalls := tr'.transcodeCalls + 1 }, ?_⟩
  unfold download_and_convert_ogg
  simp only [hm, Bool.false_eq_true, if_false]
  rw [if_neg hnew, hok]

/-- Exact outcome of the pipeline for a `.mp3`-named URL when the output is
absent and some download attempt succeeds: the note is appended, the payload
is downloaded to the ogg-candidate path and renamed to the mp3 path. -/
theorem download_ok_mp3 (env : DlEnv) (url folder : String) (fs : FS)
    (hm : pyEndsWith (derivedFilename url) ".mp3" = true)
    (hnew : mp3PathOf folder url ∉ fs.files)
    (hnet : ∃ n, n < 10 ∧ env.netOk n = true) :
    ∃ tr,
      download_and_convert_ogg env url folder fs =
        (DlOut.ret (mp3PathOf folder url) false,
          fsWrite
            (fsRemove
              (fsWrite (fsNote fs ("Was already mp3: " ++ oggPathOf folder url))
                (oggPathOf folder url))
              (oggPathOf folder url))
            (mp3PathOf folder url), tr) := by
  obtain ⟨tr', hok, _⟩ :=
    downloadRetry_ok_of_success url (oggPathOf folder url) 10 0
      (fsNote fs ("Was already mp3: " ++ oggPathOf folder url)) Trace.nil
      (by simpa using hnet)
  refine ⟨tr', ?_⟩
  unfold download_and_convert_ogg
  simp only [hm, if_true, fsNote]
  rw [if_neg hnew]
  rw [show downloadRetry env.netOk url (oggPathOf folder url) 0
      { fs with notes := fs.notes ++ ["Was already mp3: " ++ oggPathOf folder url] } Trace.nil 10 =
      DlLoop.ok (fsWrite (fsNote fs ("Was already mp3: " ++ oggPathOf folder url))
        (oggPathOf folder url)) tr' from hok]
  simp [fsNote]

/-! ## Claim theorems -/

/-- C1: for every audio URL whose derived MP3 output path already exists on
disk, `download_and_convert_ogg` returns `(mp3Path, skipped = true)` and its
trace contains no network request. -/
theorem C1_skip_no_network (env : DlEnv) (url folder : String) (fs : FS)
    (h : mp3PathOf folder url ∈ fs.files) :
    (download_and_convert_ogg env url folder fs).1 = DlOut.ret (mp3PathOf folder url) true ∧
    (download_and_convert_ogg env url folder fs).2.2.requests = [] :=
  download_skip env url folder fs h

/-- C1 witness: with `output/a.mp3` already on disk, processing
`http://x/a.ogg` skips with no request. -/
theorem C1_skip_no_network_witness :
    (download_and_convert_ogg ⟨fun _ => true, true⟩ "http://x/a.ogg" "output"
        ⟨["output/a.mp3"], []⟩).1 = DlOut.ret (mp3PathOf "output" "http://x/a.ogg") true ∧
    (download_and_convert_ogg ⟨fun _ => true, true⟩ "http://x/a.ogg" "output"
        ⟨["output/a.mp3"], []⟩).2.2.requests = [] :=
  C1_skip_no_network ⟨fun _ => true, true⟩ "http://x/a.ogg" "output"
    ⟨["output/a.mp3"], []⟩ (by decide)

/-- C2: for every `.ogg`-named URL where transcoding raises, the pipeline
appends `"Conversion fail: <oggPath>"` to the note log, leaves the downloaded
ogg file in place, does not exit, and still returns `(mp3Path, skipped =
false)` — the same return value as on transcode success. -/
theorem C2_transcode_failure (env : DlEnv) (url folder : String) (fs : FS)
    (hogg : pyEndsWith (derivedFilename url) ".ogg" = true)
    (hnew : mp3PathOf folder url ∉ fs.files)
    (hnet : ∃ n, n < 10 ∧ env.netOk n = true)
    (htc : env.transcodeOk = false) :
    (download_and_convert_ogg env url folder fs).1 =
        DlOut.ret (mp3PathOf folder url) false ∧
    (download_and_convert_ogg env url folder fs).2.1.notes =
        fs.notes ++ ["Conversion fail: " ++ oggPathOf folder url] ∧
    oggPathOf folder url ∈ (download_and_convert_ogg env url folder fs).2.1.files ∧
    (download_and_convert_ogg env url folder fs).1 =
        (download_and_convert_ogg ⟨env.netOk, true⟩ url folder fs).1 := by
  have hm := pyEndsWith_ogg_not_mp3 hogg
  obtain ⟨tr, heq⟩ := download_ok_notMp3 env url folder fs hm hnew hnet
  rw [htc] at heq
  simp only [Bool.false_eq_true, if_false] at heq
  obtain ⟨tr2, heq2⟩ := download_ok_notMp3 ⟨env.netOk, true⟩ url folder fs hm hnew hnet
  simp only [if_true] at heq2
  rw [heq, heq2]
  refine ⟨rfl, ?_, ?_, rfl⟩
  · simp [fsNote, fsWrite]
  · simp only [fsNote, fsWrite]
    exact mem_insertStr.mpr (Or.inl rfl)

/-- C2 witness: downloading `http://x/a.ogg` into an empty `output` directory
with a failing transcoder logs the failure, keeps `output/a.ogg`, and returns
the mp3 path unskipped. -/
theorem C2_transcode_failure_witness :
    (download_and_convert_ogg ⟨fun _ => true, false⟩ "http://x/a.ogg" "output" ⟨[], []⟩).1 =
        DlOut.ret (mp3PathOf "output" "http://x/a.ogg") false ∧
    (download_and_convert_ogg ⟨fun _ => true, false⟩ "http://x/a.ogg" "output" ⟨[], []⟩).2.1.notes =
        [] ++ ["Conversion fail: " ++ oggPathOf "output" "http://x/a.ogg"] ∧
    oggPathOf "output" "http://x/a.ogg" ∈
        (download_and_convert_ogg ⟨fun _ => true, false⟩ "http://x/a.ogg" "output" ⟨[], []⟩).2.1.files ∧
    (download_and_convert_ogg ⟨fun _ => true, false⟩ "http://x/a.ogg" "output" ⟨[], []⟩).1 =
        (download_and_convert_ogg ⟨fun _ => true, true⟩ "http://x/a.ogg" "output" ⟨[], []⟩).1 :=
  C2_transcode_failure ⟨fun _ => true, false⟩ "http://x/a.ogg" "output" ⟨[], []⟩
    (by decide) (by decide) ⟨0, by omega, rfl⟩ rfl

/-- C5: for every URL whose decoded filename ends with `".mp3"`, the pipeline
never invokes the transcoder, and — when the output is absent and the
download succeeds — it renames the ogg-candidate path to the mp3 path and
returns `(mp3Path, skipped = false)`. -/
theorem C5_mp3_rename_no_transcode (env : DlEnv) (url folder : String) (fs : FS)
    (hm : pyEndsWith (derivedFilename url) ".mp3" = true) :
    (download_and_convert_ogg env url folder fs).2.2.transcodeCalls = 0 ∧
    (mp3PathOf folder url ∉ fs.files →
      (∃ n, n < 10 ∧ env.netOk n = true) →
      (download_and_convert_ogg env url folder fs).1 =
          DlOut.ret (mp3PathOf folder url) false ∧
      mp3PathOf folder url ∈ (download_and_convert_ogg env url folder fs).2.1.files ∧
      oggPathOf folder url ∉ (download_and_convert_ogg env url folder fs).2.1.files) := by
  have hne : oggPathOf folder url ≠ mp3PathOf folder url := by
    unfold oggPathOf mp3PathOf
    rw [if_pos hm]
    exact append_ogg_ne_append_mp3 _ _
  constructor
  · unfold download_and_convert_ogg
    simp only [hm, if_true, fsNote]
    by_cases hskip : mp3PathOf folder url ∈ fs.files
    · rw [if_pos hskip]
      rfl
    · rw [if_neg hskip]
      cases hdl : downloadRetry env.netOk url (oggPathOf folder url) 0
          { fs with notes := fs.notes ++ ["Was already mp3: " ++ oggPathOf folder url] }
          Trace.nil 10 with
      | ok fs2 tr =>
        have h := @downloadRetry_transcode_const env.netOk url (oggPathOf folder url) 10 0
          { fs with notes := fs.notes ++ ["Was already mp3: " ++ oggPathOf folder url] } Trace.nil
        rw [hdl] at h
        exact h
      | fatal fs2 tr msg =>
        have h := @downloadRetry_transcode_const env.netOk url (oggPathOf folder url) 10 0
          { fs with notes := fs.notes ++ ["Was already mp3: " ++ oggPathOf folder url] } Trace.nil
        rw [hdl] at h
        exact h
  · intro hnew hnet
    obtain ⟨tr, heq⟩ := download_ok_mp3 env url folder fs hm hnew hnet
    rw [heq]
    refine ⟨rfl, ?_, ?_⟩
    · exact mem_insertStr.mpr (Or.inl rfl)
    · simp only [fsWrite, fsRemove, fsNote]
      intro hmem
      rcases mem_insertStr.mp hmem with h1 | h1
      · exact hne h1
      · rcases List.mem_filter.mp h1 with ⟨_, hq⟩
        simp at hq

/-- C5 witness: `http://x/track.mp3` into an empty directory renames and never
transcodes. -/
theorem C5_mp3_rename_no_transcode_witness :
    (download_and_convert_ogg ⟨fun _ => true, true⟩ "http://x/track.mp3" "output"
        ⟨[], []⟩).2.2.transcodeCalls = 0 ∧
    (download_and_convert_ogg ⟨fun _ => true, true⟩ "http://x/track.mp3" "output" ⟨[], []⟩).1 =
        DlOut.ret (mp3PathOf "output" "http://x/track.mp3") false ∧
    oggPathOf "output" "http://x/track.mp3" ∉
        (download_and_convert_ogg ⟨fun _ => true, true⟩ "http://x/track.mp3" "output"
          ⟨[], []⟩).2.1.files := by
  have h := C5_mp3_rename_no_transcode ⟨fun _ => true, true⟩ "http://x/track.mp3" "output"
    ⟨[], []⟩ (by decide)
  have h2 := h.2 (by decide) ⟨0, by omega, rfl⟩
  exact ⟨h.1, h2.1, h2.2.2⟩

/-- C6: for every URL whose decoded filename ends with `".mp3"`, the
`"Was already mp3: <oggPath>"` note is appended on every call — also when the
output file already exists and the call skips without any request — because
the note is written before the existence check. -/
theorem C6_mp3_note_before_skip_check (env : DlEnv) (url folder : String) (fs : FS)
    (hm : pyEndsWith (derivedFilename url) ".mp3" = true) :
    (download_and_convert_ogg env url folder fs).2.1.notes =
        fs.notes ++ ["Was already mp3: " ++ oggPathOf folder url] ∧
    (mp3PathOf folder url ∈ fs.files →
      (download_and_convert_ogg env url folder fs).1 =
          DlOut.ret (mp3PathOf folder url) true ∧
      (download_and_convert_ogg env url folder fs).2.2.requests = []) := by
  constructor
  · unfold download_and_convert_ogg
    simp only [hm, if_true, fsNote]
    by_cases hskip : mp3PathOf folder url ∈ fs.files
    · rw [if_pos hskip]
    · rw [if_neg hskip]
      have hfs := @downloadRetry_fsOf env.netOk url (oggPathOf folder url) 10 0
        { fs with notes := fs.notes ++ ["Was already mp3: " ++ oggPathOf folder url] } Trace.nil
      cases hdl : downloadRetry env.netOk url (oggPathOf folder url) 0
          { fs with notes := fs.notes ++ ["Was already mp3: " ++ oggPathOf folder url] }
          Trace.nil 10 with
      | ok fs2 tr =>
        rw [hdl] at hfs
        simp only [DlLoop.fsOf] at hfs
        rcases hfs with hfs | hfs <;> simp [hfs, fsWrite, fsRemove]
      | fatal fs2 tr msg =>
        rw [hdl] at hfs
        simp only [DlLoop.fsOf] at hfs
        rcases hfs with hfs | hfs <;> simp [hfs, fsWrite]
  · intro hmem
    exact download_skip env url folder fs hmem

/-- C6 witness: rerunning `http://x/track.mp3` when `output/track.mp3.mp3`
already exists still appends the note, while skipping with no request. -/
theorem C6_mp3_note_before_skip_check_witness :
    (download_and_convert_ogg ⟨fun _ => true, true⟩ "http://x/track.mp3" "output"
        ⟨["output/track.mp3.mp3"], ["Was already mp3: output/track.mp3.ogg"]⟩).2.1.notes =
      ["Was already mp3: output/track.mp3.ogg"] ++
        ["Was already mp3: " ++ oggPathOf "output" "http://x/track.mp3"] ∧
    (download_and_convert_ogg ⟨fun _ => true, true⟩ "http://x/track.mp3" "output"
        ⟨["output/track.mp3.mp3"], ["Was already mp3: output/track.mp3.ogg"]⟩).1 =
      DlOut.ret (mp3PathOf "output" "http://x/track.mp3") true ∧
    (download_and_convert_ogg ⟨fun _ => true, true⟩ "http://x/track.mp3" "output"
        ⟨["output/track.mp3.mp3"], ["Was already mp3: output/track.mp3.ogg"]⟩).2.2.requests = [] := by
  have h := C6_mp3_note_before_skip_check ⟨fun _ => true, true⟩ "http://x/track.mp3" "output"
    ⟨["output/track.mp3.mp3"], ["Was already mp3: output/track.mp3.ogg"]⟩ (by decide)
  have h2 := h.2 (by decide)
  exact ⟨h.1, h2.1, h2.2⟩

/-- C8: for every `.ogg`-named URL where transcoding succeeds, the intermediate
ogg file no longer exists when the pipeline returns, and the call returns
`(mp3Path, skipped = false)`. -/
theorem C8_ogg_removed_on_success (env : DlEnv) (url folder : String) (fs : FS)
    (hogg : pyEndsWith (derivedFilename url) ".ogg" = true)
    (hnew : mp3PathOf folder url ∉ fs.files)
    (hnet : ∃ n, n < 10 ∧ env.netOk n = true)
    (htc : env.transcodeOk = true) :
    oggPathOf folder url ∉ (download_and_convert_ogg env url folder fs).2.1.files ∧
    (download_and_convert_ogg env url folder fs).1 =
        DlOut.ret (mp3PathOf folder url) false := by
  have hm := pyEndsWith_ogg_not_mp3 hogg
  obtain ⟨tr, heq⟩ := download_ok_notMp3 env url folder fs hm hnew hnet
  rw [htc] at heq
  simp only [if_true] at heq
  rw [heq]
  refine ⟨?_, rfl⟩
  simp only [fsRemove, fsWrite]
  intro hmem
  rcases List.mem_filter.mp hmem with ⟨_, hq⟩
  simp at hq

/-- C8 witness: downloading `http://x/a.ogg` into an empty `output` directory
with a succeeding transcoder leaves no `output/a.ogg` behind. -/
theorem C8_ogg_removed_on_success_witness :
    oggPathOf "output" "http://x/a.ogg" ∉
        (download_and_convert_ogg ⟨fun _ => true, true⟩ "http://x/a.ogg" "output"
          ⟨[], []⟩).2.1.files ∧
    (download_and_convert_ogg ⟨fun _ => true, true⟩ "http://x/a.ogg" "output" ⟨[], []⟩).1 =
        DlOut.ret (mp3PathOf "output" "http://x/a.ogg") false :=
  C8_ogg_removed_on_success ⟨fun _ => true, true⟩ "http://x/a.ogg" "output" ⟨[], []⟩
    (by decide) (by decide) ⟨0, by omega, rfl⟩ rfl

/-- C10: when the decoded filename ends with `".mp3"` and the joined path
contains no `".ogg"` substring, the first-occurrence `".ogg"` split leaves the
name intact, so the download path gets a doubled `<name>.mp3.ogg` extension
and the output path becomes `<name>.mp3.mp3`. -/
theorem C10_doubled_extension (folder url : String)
    (hmp3 : pyEndsWith (derivedFilename url) ".mp3" = true)
    (hno : hasSubList ".ogg".data (pathJoin folder (derivedFilename url)).data = false) :
    oggPathOf folder url = pathJoin folder (derivedFilename url) ++ ".ogg" ∧
    mp3PathOf folder url = pathJoin folder (derivedFilename url) ++ ".mp3" := by
  have hsplit : pySplitBefore (pathJoin folder (derivedFilename url)) ".ogg" =
      pathJoin folder (derivedFilename url) := by
    unfold pySplitBefore
    rw [splitBeforeList_of_not_hasSub hno]
  constructor
  · unfold oggPathOf
    rw [hsplit]
  · unfold mp3PathOf
    rw [if_pos hmp3, hsplit]

/-- C10 witness: `http://x/track.mp3` with output directory `output` yields
`output/track.mp3.ogg` and `output/track.mp3.mp3`. -/
theorem C10_doubled_extension_witness :
    oggPathOf "output" "http://x/track.mp3" = "output/track.mp3.ogg" ∧
    mp3PathOf "output" "http://x/track.mp3" = "output/track.mp3.mp3" := by
  have h := C10_doubled_extension "output" "http://x/track.mp3" (by decide) (by decide)
  exact ⟨h.1.trans (by decide), h.2.trans (by decide)⟩

/-- One step of the driver loop, phrased through `processItem`. -/
theorem run_items_cons (link : String) (w : ItemWorld) (rest : List (String × ItemWorld))
    (folder : String) (fs : FS) :
    run_items ((link, w) :: rest) folder fs =
      match processItem w link folder fs with
      | (ItemOut.halted msg, fs1, _) => ([ItemOut.halted msg], fs1)
      | (ItemOut.done p s, fs1, _) =>
        (ItemOut.done p s :: (run_items rest folder fs1).1, (run_items rest folder fs1).2)
      | (ItemOut.noLink, fs1, _) =>
        (ItemOut.noLink :: (run_items rest folder fs1).1, (run_items rest folder fs1).2) :=
  rfl

/-- C3: when the retry budget is exhausted — all 10 attempts of the resource
download failing, or all 10 attempts of the subpage fetch raising — the whole
run ends at once with the connection-error `sys.exit`: the halted outcome is
the only one produced, whatever items remain. -/
theorem C3_fetch_exhaustion_fatal (w : ItemWorld) (link folder : String) (fs : FS)
    (rest : List (String × ItemWorld)) :
    ((∀ n, w.fetch n = ReqOutcome.exn) →
      run_items ((link, w) :: rest) folder fs = ([ItemOut.halted connErrorMsg], fs)) ∧
    (∀ u : String, w.fetch 0 = ReqOutcome.resp true →
      resolve_ogg_url w.doc link = some u →
      u ≠ "" →
      mp3PathOf folder u ∉ fs.files →
      (∀ n, w.netOk n = false) →
      (run_items ((link, w) :: rest) folder fs).1 = [ItemOut.halted connErrorMsg]) := by
  constructor
  · intro hf
    have hg := gfprLoop_allExn hf link 10 0 Trace.nil
    unfold run_items processItem get_file_page_response
    rw [hg]
    simp [respTruthy]
  · intro u h0 hres hu hnew hnet
    obtain ⟨fs1, tr1, hdl⟩ :=
      download_allFail ⟨w.netOk, w.transcodeOk⟩ u folder fs hnew (fun n => hnet n)
    unfold run_items processItem
    rw [gfpr_first_resp h0 link]
    simp only [respTruthy, Bool.true_eq_false, if_false]
    rw [hres]
    simp only [bne_iff_ne, ne_eq, hu, not_false_eq_true, if_true]
    rw [hdl]

/-- C3 witness: a first item whose subpage fetch always raises halts the run
before a second healthy item; so does a first item whose resource download
always fails. -/
theorem C3_fetch_exhaustion_fatal_witness :
    run_items
        [("http://s/File:a.ogg", ⟨fun _ => ReqOutcome.exn, ⟨none, []⟩, fun _ => true, true⟩),
         ("http://s/File:b.ogg", ⟨fun _ => ReqOutcome.resp true, ⟨none, ["b.ogg"]⟩, fun _ => true, true⟩)]
        "output" ⟨[], []⟩ = ([ItemOut.halted connErrorMsg], ⟨[], []⟩) ∧
    (run_items
        [("http://s/File:a.ogg",
          ⟨fun _ => ReqOutcome.resp true, ⟨some ⟨some ⟨some "a.ogg"⟩⟩, []⟩, fun _ => false, true⟩),
         ("http://s/File:b.ogg", ⟨fun _ => ReqOutcome.resp true, ⟨none, ["b.ogg"]⟩, fun _ => true, true⟩)]
        "output" ⟨[], []⟩).1 = [ItemOut.halted connErrorMsg] :=
  ⟨(C3_fetch_exhaustion_fatal ⟨fun _ => ReqOutcome.exn, ⟨none, []⟩, fun _ => true, true⟩
      "http://s/File:a.ogg" "output" ⟨[], []⟩
      [("http://s/File:b.ogg", ⟨fun _ => ReqOutcome.resp true, ⟨none, ["b.ogg"]⟩, fun _ => true, true⟩)]).1
      (fun _ => rfl),
   (C3_fetch_exhaustion_fatal
      ⟨fun _ => ReqOutcome.resp true, ⟨some ⟨some ⟨some "a.ogg"⟩⟩, []⟩, fun _ => false, true⟩
      "http://s/File:a.ogg" "output" ⟨[], []⟩
      [("http://s/File:b.ogg", ⟨fun _ => ReqOutcome.resp true, ⟨none, ["b.ogg"]⟩, fun _ => true, true⟩)]).2
      "http://s/a.ogg" rfl (by decide) (by decide) (by decide) (fun _ => rfl)⟩

/-- C7: subpage resolution prioritises the audio element's nested source `src`
(resolved against the subpage URL); otherwise it takes the first anchor whose
href ends with `".ogg"` (also resolved against the subpage URL); otherwise no
resource is found and the item is skipped as `noLink` while the run
continues with the remaining items. -/
theorem C7_resolution_priority (doc : Doc) (link folder : String) (w : ItemWorld)
    (fs : FS) (rest : List (String × ItemWorld)) :
    (∀ a s src, doc.audio = some a → a.sourceEl = some s → s.src = some src → src ≠ "" →
      resolve_ogg_url doc link = some (urljoin link src)) ∧
    (truthyStr (audioSrcUrl doc link) = false →
      ∀ h, doc.anchorHrefs.find? (fun x => pyEndsWith x ".ogg") = some h →
        resolve_ogg_url doc link = some (urljoin link h)) ∧
    (w.fetch 0 = ReqOutcome.resp true →
      truthyStr (audioSrcUrl w.doc link) = false →
      w.doc.anchorHrefs.find? (fun x => pyEndsWith x ".ogg") = none →
      run_items ((link, w) :: rest) folder fs =
        (ItemOut.noLink :: (run_items rest folder fs).1, (run_items rest folder fs).2)) := by
  refine ⟨?_, ?_, ?_⟩
  · intro a s src ha hs hsrc hne
    have hau : audioSrcUrl doc link = some (urljoin link src) := by
      simp only [audioSrcUrl, ha, hs, hsrc]
      simp [bne_iff_ne, hne]
    have htr : truthyStr (audioSrcUrl doc link) = true := by
      rw [hau]
      simp only [truthyStr, bne_iff_ne, ne_eq]
      simpa using urljoin_ne_empty link hne
    simp only [resolve_ogg_url]
    rw [htr]
    simpa using hau
  · intro htr h hfind
    simp only [resolve_ogg_url]
    rw [htr]
    simp only [Bool.false_eq_true, if_false]
    rw [hfind]
  · intro h0 htr hfind
    have hres : resolve_ogg_url w.doc link = audioSrcUrl w.doc link := by
      simp only [resolve_ogg_url]
      rw [htr]
      simp only [Bool.false_eq_true, if_false]
      rw [hfind]
    have hp : processItem w link folder fs = (ItemOut.noLink, fs, ⟨[link], 0, 0⟩) := by
      unfold processItem
      rw [gfpr_first_resp h0 link]
      simp only [respTruthy, Bool.true_eq_false, if_false]
      rw [hres]
      cases hau : audioSrcUrl w.doc link with
      | none => simp
      | some s =>
        have hs : s = "" := by
          rw [hau] at htr
          simpa [truthyStr] using htr
        subst hs
        simp
    rw [run_items_cons, hp]

/-- C7 witness: an audio source wins over an anchor; the first `.ogg` anchor is
used otherwise; with neither, the item is `noLink` and the following item is
still processed. -/
theorem C7_resolution_priority_witness :
    resolve_ogg_url ⟨some ⟨some ⟨some "track1.ogg"⟩⟩, ["other.ogg"]⟩
        "http://site/wiki/File:Track1.ogg" = some "http://site/wiki/track1.ogg" ∧
    resolve_ogg_url ⟨none, ["x.html", "other.ogg"]⟩ "http://site/wiki/File:Track1.ogg" =
        some (urljoin "http://site/wiki/File:Track1.ogg" "other.ogg") ∧
    run_items
        [("http://site/wiki/File:NoAudio.ogg",
          ⟨fun _ => ReqOutcome.resp true, ⟨none, ["x.html"]⟩, fun _ => true, true⟩)]
        "output" ⟨[], []⟩ = ([ItemOut.noLink], ⟨[], []⟩) := by
  refine ⟨?_, ?_, ?_⟩
  · have h := (C7_resolution_priority ⟨some ⟨some ⟨some "track1.ogg"⟩⟩, ["other.ogg"]⟩
      "http://site/wiki/File:Track1.ogg" "output"
      ⟨fun _ => ReqOutcome.resp true, ⟨none, []⟩, fun _ => true, true⟩ ⟨[], []⟩ []).1
      ⟨some ⟨some "track1.ogg"⟩⟩ ⟨some "track1.ogg"⟩ "track1.ogg" rfl rfl rfl (by decide)
    exact h.trans (by decide)
  · exact (C7_resolution_priority ⟨none, ["x.html", "other.ogg"]⟩
      "http://site/wiki/File:Track1.ogg" "output"
      ⟨fun _ => ReqOutcome.resp true, ⟨none, []⟩, fun _ => true, true⟩ ⟨[], []⟩ []).2.1
      (by decide) "other.ogg" (by decide)
  · exact (C7_resolution_priority ⟨none, ["x.html"]⟩ "http://site/wiki/File:NoAudio.ogg"
      "output" ⟨fun _ => ReqOutcome.resp true, ⟨none, ["x.html"]⟩, fun _ => true, true⟩
      ⟨[], []⟩ []).2.2 rfl (by decide) (by decide)

/-- C9: a subpage fetch that returns a non-ok response (e.g. a 404) is not
retried — one request, no sleep, the response returned — yet the driver's
truthiness test on it triggers the same fatal connection-error exit as retry
exhaustion. -/
theorem C9_non_ok_response_fatal (w : ItemWorld) (link folder : String) (fs : FS)
    (h : w.fetch 0 = ReqOutcome.resp false) :
    get_file_page_response w.fetch link = (some false, ⟨[link], 0, 0⟩) ∧
    (processItem w link folder fs).1 = ItemOut.halted connErrorMsg := by
  refine ⟨gfpr_first_resp h link, ?_⟩
  unfold processItem
  rw [gfpr_first_resp h link]
  simp [respTruthy]

/-- C9 witness: a first-attempt 404-style response halts the item processing
fatally after exactly one request. -/
theorem C9_non_ok_response_fatal_witness :
    get_file_page_response (fun _ => ReqOutcome.resp false) "http://s/File:a.ogg" =
      (some false, ⟨["http://s/File:a.ogg"], 0, 0⟩) ∧
    (processItem ⟨fun _ => ReqOutcome.resp false, ⟨none, []⟩, fun _ => true, true⟩
        "http://s/File:a.ogg" "output" ⟨[], []⟩).1 = ItemOut.halted connErrorMsg :=
  C9_non_ok_response_fatal ⟨fun _ => ReqOutcome.resp false, ⟨none, []⟩, fun _ => true, true⟩
    "http://s/File:a.ogg" "output" ⟨[], []⟩ rfl

/-- C4 counterexample: exhausting the subpage fetch issues 10 requests but
sleeps 10 times — one sleep after every failure, including the final attempt —
not the 9 sleeps the claim's "no wait after the final attempt" implies. -/
theorem C4_counterexample :
    (get_file_page_response (fun _ => ReqOutcome.exn) "http://s/p").2.requests.length = 10 ∧
    (get_file_page_response (fun _ => ReqOutcome.exn) "http://s/p").2.sleeps = 10 ∧
    ¬ (get_file_page_response (fun _ => ReqOutcome.exn) "http://s/p").2.sleeps =
        (get_file_page_response (fun _ => ReqOutcome.exn) "http://s/p").2.requests.length - 1 := by
  decide

/-- C4 amended: both retried fetches attempt at most 10 times and wait 1
time-unit between attempts; the resource download skips the wait after the
final attempt (exhaustion: 10 requests, 9 sleeps, fatal exit), but the
subpage fetch also sleeps after the final attempt (exhaustion: 10 requests,
10 sleeps) before surfacing the failure. -/
theorem C4_retry_budget_amended (outcome : Nat → ReqOutcome) (netOk : Nat → Bool)
    (url1 url2 p : String) (fs : FS) :
    (get_file_page_response outcome url1).2.requests.length ≤ 10 ∧
    (downloadRetry netOk url2 p 0 fs Trace.nil 10).trace.requests.length ≤ 10 ∧
    ((∀ n, outcome n = ReqOutcome.exn) →
      (get_file_page_response outcome url1).2 = ⟨List.replicate 10 url1, 10, 0⟩) ∧
    ((∀ n, netOk n = false) →
      downloadRetry netOk url2 p 0 fs Trace.nil 10 =
        DlLoop.fatal fs ⟨List.replicate 10 url2, 9, 0⟩ connErrorMsg) := by
  refine ⟨?_, ?_, ?_, ?_⟩
  · have h := @gfprLoop_requests_le outcome url1 10 0 Trace.nil
    simpa [get_file_page_response, Trace.nil] using h
  · have h := @downloadRetry_requests_le netOk url2 p 10 0 fs Trace.nil
    simpa [Trace.nil] using h
  · intro hf
    unfold get_file_page_response
    rw [gfprLoop_allExn hf url1 10 0 Trace.nil]
    simp [Trace.nil]
  · intro hf
    rw [downloadRetry_allFail hf url2 p 10 0 fs Trace.nil (by omega)]
    simp [Trace.nil]

/-- C4 amended witness: the exhaustion traces at concrete inputs. -/
theorem C4_retry_budget_amended_witness :
    (get_file_page_response (fun _ => ReqOutcome.exn) "http://s/p").2 =
      ⟨List.replicate 10 "http://s/p", 10, 0⟩ ∧
    downloadRetry (fun _ => false) "http://x/a.ogg" "output/a.ogg" 0 ⟨[], []⟩ Trace.nil 10 =
      DlLoop.fatal ⟨[], []⟩ ⟨List.replicate 10 "http://x/a.ogg", 9, 0⟩ connErrorMsg :=
  ⟨(C4_retry_budget_amended (fun _ => ReqOutcome.exn) (fun _ => false) "http://s/p"
      "http://x/a.ogg" "output/a.ogg" ⟨[], []⟩).2.2.1 (fun _ => rfl),
   (C4_retry_budget_amended (fun _ => ReqOutcome.exn) (fun _ => false) "http://s/p"
      "http://x/a.ogg" "output/a.ogg" ⟨[], []⟩).2.2.2 (fun _ => rfl)⟩

end OggBatch
